import Mathlib

/-!
Shallow embedding of the Giga-Peach batch generation orchestrator
(`src/App.tsx`), its grouping projection, preset initialization, and the
persistent store it depends on.  React state is modelled as an explicit
`AppState` record; the functional `setTasks` updaters from the source are
modelled as `TaskEvent`s applied by `applyEvent`.  JavaScript truthiness of
optional strings (`!retryPrompt`, `task.batchId || 'legacy'`,
`err.message || "Generation failed"`) is modelled explicitly.
-/

namespace GigaPeach
/-- Status of a generation task, from the `GenerationTask.status` union
`'pending' | 'generating' | 'success' | 'error'`. -/
inductive TaskStatus where
  | pending
  | generating
  | success
  | error
deriving DecidableEq

/-- Record of a generated image, from the `GeneratedImage` shape used in
`App.tsx` (`handleGenerate` success path) and spec section 3.  `isFavorite`
defaults to `false`, modelling the absent/undefined field. -/
structure GeneratedImage where
  id : String
  batchId : String
  url : String
  prompt : String
  aspectRatio : String
  resolution : String
  timestamp : Nat
  styleId : String
  referenceImages : List String
  isFavorite : Bool := false
deriving DecidableEq

/-- One generation task, from the `GenerationTask` shape used in `App.tsx`. -/
structure GenerationTask where
  id : String
  batchId : Option String := none
  status : TaskStatus
  aspectRatio : String
  prompt : String
  data : Option GeneratedImage := none
  error : Option String := none
  placeholder : Bool := false
deriving DecidableEq

/-- Style preset record, from the `StylePreset` shape used in `App.tsx`. -/
structure StylePreset where
  id : String
  name : String
  description : String
  icon : Option String := none
  referenceImages : Option (List String) := none
deriving DecidableEq

/-- Generation parameters, from the `GenerationParams` state in `App.tsx`. -/
structure GenerationParams where
  aspectRatios : List String
  resolution : String
  count : Nat
deriving DecidableEq

/-- Active tab of the interface (`'create' | 'gallery' | 'favorites'`). -/
inductive Tab where
  | create
  | gallery
  | favorites
deriving DecidableEq

/-- Lightbox state, from the `lightboxState` record in `App.tsx`. -/
structure LightboxState where
  isOpen : Bool
  images : List GeneratedImage
  currentIndex : Nat
deriving DecidableEq

/-- The mutable application state of `App.tsx`, including the persistent
store collections (`imageStore`, `presetStore`) backing
`saveImage`/`getGallery`/`savePreset`/`getAllPresets`. -/
structure AppState where
  apiKey : String
  baseUrl : String
  keyModalOpen : Bool
  activeTab : Tab
  showConfig : Bool
  prompt : String
  selectedStyleId : String
  referenceImages : List String
  allPresets : List StylePreset
  params : GenerationParams
  tasks : List GenerationTask
  gallery : List GeneratedImage
  lightbox : LightboxState
  imageStore : List GeneratedImage
  presetStore : List StylePreset
deriving DecidableEq

/-- Modelled from the spec: `upsertImage` of `src/services/storage.ts`
(section 4.1), a file not among the sources.  Inserts or fully replaces the
record with that id; idempotent; no error on either insert or replace. -/
def saveImage (img : GeneratedImage) (store : List GeneratedImage) :
    List GeneratedImage :=
  if store.any (fun j => j.id == img.id) then
    store.map (fun j => if j.id = img.id then img else j)
  else
    store ++ [img]

/-- Modelled from the spec: `listImages` of `src/services/storage.ts`
(section 4.1), a file not among the sources.  Returns all image records in a
store-stable order with read-after-write consistency. -/
def getGallery (store : List GeneratedImage) : List GeneratedImage := store

/-- Modelled from the spec: `upsertPreset` of `src/services/storage.ts`
(section 4.1), a file not among the sources.  Same contract as `saveImage`
on the independent preset collection. -/
def savePreset (p : StylePreset) (store : List StylePreset) :
    List StylePreset :=
  if store.any (fun q => q.id == p.id) then
    store.map (fun q => if q.id = p.id then p else q)
  else
    store ++ [p]

/-- Modelled from the spec: `listPresets` of `src/services/storage.ts`
(section 4.1), a file not among the sources. -/
def getAllPresets (store : List StylePreset) : List StylePreset := store

/-- The functional updaters passed to `setTasks` in `App.tsx`, plus the
batch append.  `markGenerating` is the updater at the head of the dispatch
loop of `handleGenerate`; `completeSuccess` and `completeError` are the
updaters of its `.then` and `.catch` continuations; `favoriteUpd` is the
task-list updater of `handleToggleFavorite`; `deleteTask` is
`handleDeleteTask`'s filter. -/
inductive TaskEvent where
  | appendBatch (newTasks : List GenerationTask)
  | markGenerating (id : String)
  | completeSuccess (id : String) (d : GeneratedImage)
  | completeError (id : String) (msg : String)
  | favoriteUpd (img : GeneratedImage)
  | deleteTask (id : String)
deriving DecidableEq

/-- Applies one `setTasks` updater to the task list, exactly as the
corresponding arrow function in `App.tsx` does. -/
def applyEvent (ts : List GenerationTask) : TaskEvent → List GenerationTask
  | TaskEvent.appendBatch newTasks => ts ++ newTasks
  | TaskEvent.markGenerating i =>
      ts.map (fun t =>
        if t.id = i then { t with status := TaskStatus.generating } else t)
  | TaskEvent.completeSuccess i d =>
      ts.map (fun t =>
        if t.id = i then
          { t with status := TaskStatus.success, data := some d }
        else t)
  | TaskEvent.completeError i msg =>
      ts.map (fun t =>
        if t.id = i then
          { t with status := TaskStatus.error, error := some msg }
        else t)
  | TaskEvent.favoriteUpd img =>
      ts.map (fun t =>
        if (t.data.map (fun d => d.id)) = some img.id then
          { t with data := some img }
        else t)
  | TaskEvent.deleteTask i => ts.filter (fun t => t.id ≠ i)

/-- Observed status of the task with the given id (first match), or `none`
if no such task is in the list. -/
def statusOf (i : String) (ts : List GenerationTask) : Option TaskStatus :=
  (ts.find? (fun t => t.id == i)).map (fun t => t.status)

/-- Deterministic task id `batchId + "-" + ratio + "-" + i` from the
template literal in `handleGenerate`. -/
def taskId (batchId ratio : String) (i : Nat) : String :=
  batchId ++ "-" ++ ratio ++ "-" ++ Nat.repr i

/-- One pending task as pushed by the expansion loop of `handleGenerate`. -/
def mkTask (batchId finalPrompt ratio : String) (i : Nat) : GenerationTask :=
  { id := taskId batchId ratio i
    batchId := some batchId
    status := TaskStatus.pending
    aspectRatio := ratio
    prompt := finalPrompt
    placeholder := true }

/-- The batch expansion of `handleGenerate`: outer loop over
`params.aspectRatios` in order, inner loop over the count ascending. -/
def mkBatchTasks (batchId : String) (params : GenerationParams)
    (finalPrompt : String) : List GenerationTask :=
  params.aspectRatios.flatMap (fun ratio =>
    (List.range params.count).map (fun i => mkTask batchId finalPrompt ratio i))

/-- Argument record of one `generateSingleImage` call in `handleGenerate`. -/
structure GenCall where
  prompt : String
  referenceImages : List String
  aspectRatio : String
  resolution : String
  apiKey : String
  baseUrl : Option String
deriving DecidableEq

/-- JavaScript whitespace test for the characters `String.prototype.trim`
removes (the common ASCII ones). -/
def isWsChar (c : Char) : Bool :=
  c == ' ' || c == '\t' || c == '\n' || c == '\r'

/-- Executable model of JavaScript `String.prototype.trim`: strips leading
and trailing whitespace. -/
def jsTrim (s : String) : String :=
  (((s.data.dropWhile isWsChar).reverse.dropWhile isWsChar).reverse).asString

/-- JavaScript truthiness of the optional `retryPrompt` string argument:
`undefined` and the empty string are falsy. -/
def optTruthy : Option String → Bool
  | some s => s != ""
  | none => false

/-- The synchronous part of the dispatch loop of `handleGenerate`: for each
new task, first the `markGenerating` updater is applied, and only then the
call to `generateSingleImage` is issued. -/
inductive DispatchAction where
  | update (e : TaskEvent)
  | issue (c : GenCall)
deriving DecidableEq

/-- The action sequence of the `newTasks.forEach` dispatch loop. -/
def dispatchSeq (newTasks : List GenerationTask)
    (callFor : GenerationTask → GenCall) : List DispatchAction :=
  newTasks.flatMap (fun t =>
    [DispatchAction.update (TaskEvent.markGenerating t.id),
     DispatchAction.issue (callFor t)])

/-- The net effect of the `markGenerating` updaters of the dispatch loop on
the task list. -/
def markAllGenerating (newTasks : List GenerationTask)
    (ts : List GenerationTask) : List GenerationTask :=
  newTasks.foldl (fun acc t => applyEvent acc (TaskEvent.markGenerating t.id)) ts

/-- Result of one `handleGenerate` invocation: the missing-credential
no-op, the empty-input no-op, or a submitted batch together with the prompt
and reference images delivered to every `generateSingleImage` call and the
state after the synchronous part of the handler. -/
inductive GenerateResult where
  | missingKey (st' : AppState)
  | noop (st' : AppState)
  | submitted (finalPrompt : String) (finalRefImages : List String)
      (newTasks : List GenerationTask) (calls : List GenCall) (st' : AppState)
deriving DecidableEq

/-- Embedding of `handleGenerate(retryPrompt?, retryRefImages?)` from
`App.tsx`.  `now` is the submission instant (`Date.now()`); the batch id is
its decimal representation. -/
def handleGenerate (st : AppState) (now : Nat) (retryPrompt : Option String)
    (retryRefImages : Option (List String)) : GenerateResult :=
  if st.apiKey = "" then
    GenerateResult.missingKey { st with keyModalOpen := true }
  else
    let effectivePrompt := retryPrompt.getD st.prompt
    let effectiveRefImages := retryRefImages.getD st.referenceImages
    if jsTrim effectivePrompt = "" ∧ effectiveRefImages = [] then
      GenerateResult.noop st
    else
      let st1 := { st with activeTab := Tab.create, showConfig := false }
      let style := st.allPresets.find? (fun s => s.id == st.selectedStyleId)
      let finalPrompt :=
        match style with
        | some s =>
            if optTruthy retryPrompt = false ∧ s.id ≠ "none" then
              s.description ++ ". " ++ effectivePrompt
            else effectivePrompt
        | none => effectivePrompt
      let finalRefImages := effectiveRefImages ++
        (match style with
         | some s => s.referenceImages.getD []
         | none => [])
      let batchId := Nat.repr now
      let newTasks := mkBatchTasks batchId st.params finalPrompt
      let calls := newTasks.map (fun t =>
        { prompt := finalPrompt
          referenceImages := finalRefImages
          aspectRatio := t.aspectRatio
          resolution := st.params.resolution
          apiKey := st.apiKey
          baseUrl := if st.baseUrl = "" then none else some st.baseUrl })
      let st2 := { st1 with
        tasks := markAllGenerating newTasks (st1.tasks ++ newTasks) }
      let st3 :=
        if optTruthy retryPrompt = false then
          { st2 with prompt := "", referenceImages := [] }
        else st2
      GenerateResult.submitted finalPrompt finalRefImages newTasks calls st3

/-- Embedding of `handleRegenerateBatch(batchTasks)` from `App.tsx`:
`none` models the early return on an empty group. -/
def handleRegenerateBatch (batchTasks : List GenerationTask)
    (st : AppState) (now : Nat) : Option GenerateResult :=
  match batchTasks with
  | [] => none
  | t0 :: _ =>
    let firstPrompt := t0.prompt
    match (batchTasks.find? (fun t => t.data.isSome)).bind
        (fun t => t.data) with
    | some firstData =>
        some (handleGenerate st now (some firstData.prompt)
          (some firstData.referenceImages))
    | none => some (handleGenerate st now (some firstPrompt) none)

/-- Embedding of `handleToggleFavorite(image)` from `App.tsx`. -/
def handleToggleFavorite (image : GeneratedImage) (st : AppState) : AppState :=
  let updatedImage := { image with isFavorite := !image.isFavorite }
  let lightboxNext :=
    if st.lightbox.isOpen then
      { st.lightbox with
        images := st.lightbox.images.map
          (fun img => if img.id = image.id then updatedImage else img) }
    else st.lightbox
  { st with
    imageStore := saveImage updatedImage st.imageStore
    gallery := st.gallery.map
      (fun img => if img.id = image.id then updatedImage else img)
    tasks := applyEvent st.tasks (TaskEvent.favoriteUpd updatedImage)
    lightbox := lightboxNext }

/-- Embedding of `handleDeleteTask(id)` from `App.tsx`: removes the task
from the in-session list only. -/
def handleDeleteTask (i : String) (st : AppState) : AppState :=
  { st with tasks := applyEvent st.tasks (TaskEvent.deleteTask i) }

/-- Outcome of the asynchronous continuation of one dispatched call:
`generateSingleImage` resolves with a url, or it rejects, or it resolves but
the subsequent `saveImage` write rejects. -/
inductive CallOutcome where
  | ok (url : String)
  | genRejected (msg : Option String)
  | saveRejected (msg : Option String)
deriving DecidableEq

/-- Error message attached by the `.catch` handler,
`err.message || "Generation failed"`: an absent or empty message falls back
to the generic one. -/
def errMsgOf : Option String → String
  | some s => if s = "" then "Generation failed" else s
  | none => "Generation failed"

/-- The single `.catch` handler of the dispatch loop of `handleGenerate`:
marks the one task `error` with the rejection's message or the fallback. -/
def settleFailure (tid : String) (msg : Option String) (st : AppState) :
    AppState :=
  { st with
    tasks := applyEvent st.tasks (TaskEvent.completeError tid (errMsgOf msg)) }

/-- The asynchronous continuation of one dispatched task in
`handleGenerate`: on success builds the `GeneratedImage`, writes it through
`saveImage`, marks the task `success` and reloads the gallery; a rejection
of either `generateSingleImage` or `saveImage` lands in the shared `.catch`
handler (`settleFailure`), which touches neither the store nor the gallery.
The `batchId`, prompt, references, resolution and style id are the values
captured by the closure at dispatch time; `now2` is the completion instant.
Rejection outcomes of the external calls are modelled from the spec
(sections 4.1 and 6): a rejected store write performs no durable mutation. -/
def onTaskSettled (task : GenerationTask) (batchId finalPrompt : String)
    (finalRefImages : List String) (resolution styleId : String) (now2 : Nat)
    (outcome : CallOutcome) (st : AppState) : AppState :=
  match outcome with
  | CallOutcome.ok url =>
      let generatedData : GeneratedImage :=
        { id := task.id
          batchId := batchId
          url := url
          prompt := finalPrompt
          aspectRatio := task.aspectRatio
          resolution := resolution
          timestamp := now2
          styleId := styleId
          referenceImages := finalRefImages }
      let store2 := saveImage generatedData st.imageStore
      { st with
        imageStore := store2
        tasks := applyEvent st.tasks
          (TaskEvent.completeSuccess task.id generatedData)
        gallery := getGallery store2 }
  | CallOutcome.genRejected msg => settleFailure task.id msg st
  | CallOutcome.saveRejected msg => settleFailure task.id msg st

/-- Grouping key of a task, `task.batchId || 'legacy'`: an absent or empty
batch id is bucketed under the fixed legacy key. -/
def batchKey (t : GenerationTask) : String :=
  match t.batchId with
  | some b => if b = "" then "legacy" else b
  | none => "legacy"

/-- One step of the `tasks.forEach` accumulation in `groupTasksByBatch`:
a first-seen batch id opens a new group at the end of the order, an already
seen one appends the task to its group. -/
def pushTask (acc : List (String × List GenerationTask))
    (t : GenerationTask) : List (String × List GenerationTask) :=
  let bid := batchKey t
  if acc.any (fun p => p.1 == bid) then
    acc.map (fun p => if p.1 = bid then (p.1, p.2 ++ [t]) else p)
  else
    acc ++ [(bid, [t])]

/-- Embedding of `groupTasksByBatch(tasks)` from `App.tsx`. -/
def groupTasksByBatch (tasks : List GenerationTask) :
    List (List GenerationTask) :=
  (tasks.foldl pushTask []).map (fun p => p.2)

/-- First-seen-order deduplication of a key list; the reference order used
to characterize `groupTasksByBatch`. -/
def firstSeen : List String → List String
  | [] => []
  | k :: ks => k :: (firstSeen ks).filter (fun x => x ≠ k)

/-- Embedding of the preset phase of the `initDB` effect in `App.tsx`:
upsert the sentinel default (when the built-in defaults define one), then
seed exactly the defaults whose ids are not already stored.  The built-in
list `DEFAULT_PRESETS` lives in `src/constants.ts`, which is not among the
sources; it is passed as the `defaults` argument. -/
def initPresetStore (defaults : List StylePreset)
    (store0 : List StylePreset) : List StylePreset :=
  let store1 :=
    match defaults.find? (fun p => p.id == "none") with
    | some d => savePreset d store0
    | none => store0
  let currentPresets := getAllPresets store1
  let existingIds := currentPresets.map (fun p => p.id)
  let missingDefaults := defaults.filter (fun p => ¬ existingIds.contains p.id)
  missingDefaults.foldl (fun s p => savePreset p s) store1

/-- Dash-freeness of a string, used to reason about the uniqueness of the
`"-"`-separated task ids. -/
def noDash (s : String) : Bool :=
  s.data.all (fun c => c != '-')

/-- Decimal digit characters of a positive number, most significant first. -/
def repChars (n : Nat) : List Char :=
  ((Nat.digits 10 n).map Nat.digitChar).reverse

def baseState : AppState :=
  { apiKey := "k"
    baseUrl := ""
    keyModalOpen := false
    activeTab := Tab.create
    showConfig := true
    prompt := "a cat"
    selectedStyleId := "none"
    referenceImages := []
    allPresets := [{ id := "none", name := "None", description := "" }]
    params := { aspectRatios := ["1:1", "16:9"], resolution := "2K", count := 2 }
    tasks := []
    gallery := []
    lightbox := { isOpen := false, images := [], currentIndex := 0 }
    imageStore := []
    presetStore := [] }

def c1Tasks : List GenerationTask := mkBatchTasks "17" baseState.params "a cat"

def c1Calls : List GenCall :=
  c1Tasks.map (fun t =>
    { prompt := "a cat"
      referenceImages := []
      aspectRatio := t.aspectRatio
      resolution := "2K"
      apiKey := "k"
      baseUrl := none })

def c1Final : AppState :=
  { baseState with
    showConfig := false
    prompt := ""
    tasks := markAllGenerating c1Tasks c1Tasks }
def c2State : AppState :=
  { baseState with
    selectedStyleId := "styleA"
    referenceImages := ["u1"]
    allPresets := [{ id := "styleA", name := "A",
                     description := "Neon Noir style",
                     referenceImages := some ["s1"] }] }

def c2Preset : StylePreset :=
  { id := "styleA", name := "A", description := "Neon Noir style",
    referenceImages := some ["s1"] }

def c2Tasks : List GenerationTask :=
  mkBatchTasks "17" c2State.params "Neon Noir style. a cat"

def c2Calls : List GenCall :=
  c2Tasks.map (fun t =>
    { prompt := "Neon Noir style. a cat"
      referenceImages := ["u1", "s1"]
      aspectRatio := t.aspectRatio
      resolution := "2K"
      apiKey := "k"
      baseUrl := none })

def c2Final : AppState :=
  { c2State with
    showConfig := false
    prompt := ""
    referenceImages := []
    tasks := markAllGenerating c2Tasks c2Tasks }

set_option maxHeartbeats 1000000 in

set_option maxHeartbeats 1000000 in
def applyEvents (ts : List GenerationTask) (es : List TaskEvent) :
    List GenerationTask :=
  es.foldl applyEvent ts

def obsStep (a b : Option TaskStatus) : Bool :=
  a == b || b == none ||
  (a == some TaskStatus.pending && b == some TaskStatus.generating) ||
  (a == some TaskStatus.pending && b == none) ||
  (a == some TaskStatus.generating && b == some TaskStatus.success) ||
  (a == some TaskStatus.generating && b == some TaskStatus.error)

def Untargeted (i : String) : TaskEvent → Prop
  | TaskEvent.appendBatch nts => ∀ t ∈ nts, t.id ≠ i
  | TaskEvent.markGenerating j => j ≠ i
  | TaskEvent.completeSuccess j _ => j ≠ i
  | TaskEvent.completeError j _ => j ≠ i
  | TaskEvent.favoriteUpd _ => True
  | TaskEvent.deleteTask _ => True

inductive Phase where
  | pend
  | gen
  | done

def phaseInv (i : String) (ph : Phase) (ts : List GenerationTask) : Prop :=
  match ph with
  | Phase.pend => statusOf i ts = some TaskStatus.pending ∨ statusOf i ts = none
  | Phase.gen =>
      statusOf i ts = some TaskStatus.generating ∨ statusOf i ts = none
  | Phase.done =>
      statusOf i ts = some TaskStatus.success ∨
      statusOf i ts = some TaskStatus.error ∨ statusOf i ts = none

inductive PhEvent (i : String) : Phase → TaskEvent → Phase → Prop
  | untargetedPend (e : TaskEvent) :
      Untargeted i e → PhEvent i Phase.pend e Phase.pend
  | mark : PhEvent i Phase.pend (TaskEvent.markGenerating i) Phase.gen
  | untargetedGen (e : TaskEvent) :
      Untargeted i e → PhEvent i Phase.gen e Phase.gen
  | completeOk (d : GeneratedImage) :
      PhEvent i Phase.gen (TaskEvent.completeSuccess i d) Phase.done
  | completeFail (m : String) :
      PhEvent i Phase.gen (TaskEvent.completeError i m) Phase.done
  | untargetedDone (e : TaskEvent) :
      Untargeted i e → PhEvent i Phase.done e Phase.done

inductive PhTrace (i : String) : Phase → List TaskEvent → Prop
  | nil (ph : Phase) : PhTrace i ph []
  | cons {ph ph' : Phase} {e : TaskEvent} {es : List TaskEvent} :
      PhEvent i ph e ph' → PhTrace i ph' es → PhTrace i ph (e :: es)

def c4Task : GenerationTask :=
  { id := "t1", batchId := some "b", status := TaskStatus.pending,
    aspectRatio := "1:1", prompt := "p" }

def c4Img : GeneratedImage :=
  { id := "t1", batchId := "b", url := "u", prompt := "p",
    aspectRatio := "1:1", resolution := "2K", timestamp := 0,
    styleId := "none", referenceImages := [] }

def c6Img : GeneratedImage :=
  { id := "img1", batchId := "b", url := "u", prompt := "p",
    aspectRatio := "1:1", resolution := "2K", timestamp := 3,
    styleId := "none", referenceImages := [], isFavorite := false }

def c6Upd : GeneratedImage := { c6Img with isFavorite := true }

def c6Task : GenerationTask :=
  { id := "img1", batchId := some "b", status := TaskStatus.success,
    aspectRatio := "1:1", prompt := "p", data := some c6Img }

def c6State : AppState :=
  { baseState with
    tasks := [c6Task]
    gallery := [c6Img]
    imageStore := [c6Img]
    lightbox := { isOpen := true, images := [c6Img], currentIndex := 0 } }

def c9State : AppState := { baseState with tasks := [c4Task] }

def tA : GenerationTask :=
  { id := "a0", batchId := some "b1", status := TaskStatus.pending,
    aspectRatio := "1:1", prompt := "p" }

def tB : GenerationTask :=
  { id := "a1", batchId := some "b2", status := TaskStatus.pending,
    aspectRatio := "1:1", prompt := "p" }

def tC : GenerationTask :=
  { id := "a2", batchId := none, status := TaskStatus.pending,
    aspectRatio := "1:1", prompt := "p" }

def c8NoneDef : StylePreset :=
  { id := "none", name := "None", description := "" }

def c8StyleB : StylePreset :=
  { id := "styleB", name := "B", description := "cartoon" }

def c8StyleBEdited : StylePreset :=
  { id := "styleB", name := "B edited", description := "cartoon, edited" }

def c3Preset : StylePreset :=
  { id := "styleA", name := "A", description := "desc",
    referenceImages := some ["s1"] }

def c3State : AppState :=
  { baseState with selectedStyleId := "styleA", allPresets := [c3Preset] }

def c3Data : GeneratedImage :=
  { id := "10-1:1-0", batchId := "10", url := "u", prompt := "desc. a cat",
    aspectRatio := "1:1", resolution := "2K", timestamp := 5,
    styleId := "styleA", referenceImages := ["u1", "s1"] }

def c3Task : GenerationTask :=
  { id := "10-1:1-0", batchId := some "10", status := TaskStatus.success,
    aspectRatio := "1:1", prompt := "desc. a cat", data := some c3Data }

def c3Batch : List GenerationTask := [c3Task]

def sentRefs : Option GenerateResult → Option (List String)
  | some (GenerateResult.submitted _ refs _ _ _) => some refs
  | _ => none

def sentPrompt : Option GenerateResult → Option String
  | some (GenerateResult.submitted fp _ _ _ _) => some fp
  | _ => none

-- ===== theorems =====

theorem digitChar_ne_dash : ∀ d < 10, Nat.digitChar d ≠ '-' := by decide

theorem digitChar_inj_lt :
    ∀ d1 < 10, ∀ d2 < 10, Nat.digitChar d1 = Nat.digitChar d2 → d1 = d2 := by
  decide

theorem toDigitsCore_eq_repChars :
    ∀ (fuel n : Nat) (acc : List Char), 0 < n → n ≤ fuel →
      Nat.toDigitsCore 10 fuel n acc = repChars n ++ acc := by
  intro fuel
  induction fuel with
  | zero => intro n acc hn hf; omega
  | succ f ih =>
    intro n acc hn hf
    simp only [Nat.toDigitsCore]
    by_cases h10 : n / 10 = 0
    · simp only [h10, if_true]
      have hd : Nat.digits 10 n = [n % 10] := by
        rw [Nat.digits_def' (by norm_num : (1:Nat) < 10) hn, h10]
        simp
      simp [repChars, hd]
    · simp only [h10, if_false]
      have hlt : n / 10 < n := Nat.div_lt_self hn (by norm_num)
      rw [ih (n / 10) _ (Nat.pos_of_ne_zero h10) (by omega)]
      have hd : Nat.digits 10 n = n % 10 :: Nat.digits 10 (n / 10) := by
        rw [Nat.digits_def' (by norm_num : (1:Nat) < 10) hn]
      simp [repChars, hd, List.append_assoc]

theorem repr_pos_eq (n : Nat) (h : 0 < n) :
    Nat.repr n = (repChars n).asString := by
  unfold Nat.repr Nat.toDigits
  rw [toDigitsCore_eq_repChars (n + 1) n [] h (by omega)]
  simp

theorem asString_data (l : List Char) : (List.asString l).data = l := rfl

theorem repChars_all_digits (n : Nat) :
    ∀ c ∈ repChars n, ∃ d, d < 10 ∧ c = Nat.digitChar d := by
  intro c hc
  simp only [repChars, List.mem_reverse, List.mem_map] at hc
  obtain ⟨d, hd, rfl⟩ := hc
  exact ⟨d, Nat.digits_lt_base (by norm_num) hd, rfl⟩

theorem map_digitChar_inj :
    ∀ (l1 l2 : List Nat), (∀ d ∈ l1, d < 10) → (∀ d ∈ l2, d < 10) →
      l1.map Nat.digitChar = l2.map Nat.digitChar → l1 = l2 := by
  intro l1
  induction l1 with
  | nil => intro l2 _ _ h; cases l2 <;> simp_all
  | cons a l ih =>
    intro l2 h1 h2 h
    cases l2 with
    | nil => simp at h
    | cons b l2' =>
      simp only [List.map_cons, List.cons.injEq] at h
      have hab : a = b := by
        apply digitChar_inj_lt a (h1 a (by simp)) b (h2 b (by simp)) h.1
      subst hab
      rw [ih l2' (fun d hd => h1 d (by simp [hd])) (fun d hd => h2 d (by simp [hd])) h.2]

theorem repChars_inj {m n : Nat} (h : repChars m = repChars n) : m = n := by
  have h2 : (Nat.digits 10 m).map Nat.digitChar = (Nat.digits 10 n).map Nat.digitChar := by
    have := congrArg List.reverse h
    simpa [repChars] using this
  have h3 : Nat.digits 10 m = Nat.digits 10 n :=
    map_digitChar_inj _ _ (fun d hd => Nat.digits_lt_base (by norm_num) hd)
      (fun d hd => Nat.digits_lt_base (by norm_num) hd) h2
  have := congrArg (Nat.ofDigits 10) h3
  rwa [Nat.ofDigits_digits, Nat.ofDigits_digits] at this

theorem repr_ne_zero_str (n : Nat) (h : 0 < n) : Nat.repr n ≠ "0" := by
  rw [repr_pos_eq n h]
  intro hcontr
  have hdata : repChars n = ['0'] := by
    have := congrArg String.data hcontr
    simpa [asString_data] using this
  have h2 : (Nat.digits 10 n).map Nat.digitChar = ['0'] := by
    have := congrArg List.reverse hdata
    simpa [repChars] using this
  have h3 : Nat.digits 10 n = [0] := by
    apply map_digitChar_inj _ _ (fun d hd => Nat.digits_lt_base (by norm_num) hd)
      (by intro d hd; simp at hd; omega)
    simpa using h2
  have := congrArg (Nat.ofDigits 10) h3
  rw [Nat.ofDigits_digits] at this
  simp [Nat.ofDigits] at this
  omega

theorem nat_repr_inj : ∀ {m n : Nat}, Nat.repr m = Nat.repr n → m = n := by
  intro m n h
  rcases Nat.eq_zero_or_pos m with hm | hm
  · rcases Nat.eq_zero_or_pos n with hn | hn
    · omega
    · subst hm
      exact absurd h.symm (repr_ne_zero_str n hn)
  · rcases Nat.eq_zero_or_pos n with hn | hn
    · subst hn
      exact absurd h (repr_ne_zero_str m hm)
    · apply repChars_inj
      have := congrArg String.data h
      rwa [repr_pos_eq m hm, repr_pos_eq n hn, asString_data, asString_data] at this

theorem noDash_repr (n : Nat) : noDash (Nat.repr n) = true := by
  rcases Nat.eq_zero_or_pos n with hn | hn
  · subst hn; decide
  · rw [repr_pos_eq n hn]
    simp only [noDash, asString_data, List.all_eq_true]
    intro c hc
    obtain ⟨d, hd, rfl⟩ := repChars_all_digits n c hc
    simpa using digitChar_ne_dash d hd

theorem noDash_iff (s : String) : noDash s = true ↔ ∀ c ∈ s.data, c ≠ '-' := by
  simp [noDash]

theorem dashFree_split :
    ∀ (a : List Char), (∀ c ∈ a, c ≠ '-') → ∀ (b : List Char),
      (∀ c ∈ b, c ≠ '-') → ∀ (x y : List Char),
      a ++ '-' :: x = b ++ '-' :: y → a = b ∧ x = y := by
  intro a
  induction a with
  | nil =>
    intro _ b hb x y h
    cases b with
    | nil => simpa using h
    | cons c b' =>
      simp only [List.nil_append, List.cons_append, List.cons.injEq] at h
      exact absurd h.1.symm (hb c (by simp))
  | cons c a' ih =>
    intro ha b hb x y h
    cases b with
    | nil =>
      simp only [List.cons_append, List.nil_append, List.cons.injEq] at h
      exact absurd h.1 (ha c (by simp))
    | cons d b' =>
      simp only [List.cons_append, List.cons.injEq] at h
      obtain ⟨rfl, h2⟩ := h
      have := ih (fun e he => ha e (by simp [he])) b'
        (fun e he => hb e (by simp [he])) x y h2
      exact ⟨by rw [this.1], this.2⟩

theorem taskId_data (b r : String) (i : Nat) :
    (taskId b r i).data = b.data ++ '-' :: (r.data ++ '-' :: (Nat.repr i).data) := by
  simp [taskId, String.data_append]

theorem taskId_inj (b : String) {r1 r2 : String}
    (h1 : noDash r1 = true) (h2 : noDash r2 = true) {i1 i2 : Nat}
    (h : taskId b r1 i1 = taskId b r2 i2) : r1 = r2 ∧ i1 = i2 := by
  have hd := congrArg String.data h
  rw [taskId_data, taskId_data] at hd
  have hd2 : '-' :: (r1.data ++ '-' :: (Nat.repr i1).data)
      = '-' :: (r2.data ++ '-' :: (Nat.repr i2).data) :=
    List.append_cancel_left hd
  have hd3 : r1.data ++ '-' :: (Nat.repr i1).data
      = r2.data ++ '-' :: (Nat.repr i2).data := by
    injection hd2
  have := dashFree_split r1.data ((noDash_iff r1).mp h1) r2.data
    ((noDash_iff r2).mp h2) _ _ hd3
  refine ⟨String.ext this.1, nat_repr_inj (String.ext this.2)⟩

theorem taskId_shape (b r : String) (i : Nat) :
    taskId b r i = b ++ "-" ++ (r ++ "-" ++ Nat.repr i) := by
  apply String.ext
  simp [taskId, String.data_append]

theorem mkBatchTasks_length (b : String) (p : GenerationParams) (fp : String) :
    (mkBatchTasks b p fp).length = p.aspectRatios.length * p.count := by
  unfold mkBatchTasks
  induction p.aspectRatios with
  | nil => simp
  | cons r rs ih => simp [List.flatMap_cons, ih, Nat.succ_mul, Nat.add_comm]

theorem flatMap_blocks_getElem {α β : Type} (rs : List α) (cnt : Nat)
    (f : α → Nat → β) :
    ∀ (a i : Nat), (ha : a < rs.length) → i < cnt →
      (rs.flatMap (fun r => (List.range cnt).map (f r)))[a * cnt + i]?
        = some (f (rs.get ⟨a, ha⟩) i) := by
  induction rs with
  | nil => intro a i ha _; simp at ha
  | cons r rest ih =>
    intro a i ha hi
    cases a with
    | zero =>
      rw [List.flatMap_cons, List.getElem?_append]
      simp only [List.length_map, List.length_range]
      rw [if_pos (by omega)]
      simp [hi]
    | succ a' =>
      rw [List.flatMap_cons, List.getElem?_append]
      simp only [List.length_map, List.length_range]
      have hmul : (a' + 1) * cnt = a' * cnt + cnt := Nat.succ_mul a' cnt
      rw [hmul, if_neg (by omega)]
      have harith : a' * cnt + cnt + i - cnt = a' * cnt + i := by omega
      rw [harith]
      have ha' : a' < rest.length := by simpa using ha
      rw [ih a' i ha' hi]
      rfl

theorem mkBatchTasks_getElem (b : String) (p : GenerationParams) (fp : String)
    (a i : Nat) (ha : a < p.aspectRatios.length) (hi : i < p.count) :
    (mkBatchTasks b p fp)[a * p.count + i]?
      = some (mkTask b fp (p.aspectRatios.get ⟨a, ha⟩) i) := by
  unfold mkBatchTasks
  exact flatMap_blocks_getElem p.aspectRatios p.count
    (fun r i => mkTask b fp r i) a i ha hi

theorem mkBatchTasks_ids (b : String) (p : GenerationParams) (fp : String) :
    (mkBatchTasks b p fp).map (fun t => t.id)
      = p.aspectRatios.flatMap (fun r =>
          (List.range p.count).map (fun i => taskId b r i)) := by
  unfold mkBatchTasks
  rw [List.map_flatMap]
  simp [mkTask, Function.comp_def]

theorem mkBatchTasks_ids_nodup (b : String) (p : GenerationParams) (fp : String)
    (hnd : p.aspectRatios.Nodup)
    (hdash : ∀ r ∈ p.aspectRatios, noDash r = true) :
    ((mkBatchTasks b p fp).map (fun t => t.id)).Nodup := by
  rw [mkBatchTasks_ids]
  rw [List.nodup_flatMap]
  constructor
  · intro r hr
    apply List.Nodup.map
    · intro i1 i2 h
      exact (taskId_inj b (hdash r hr) (hdash r hr) h).2
    · exact List.nodup_range p.count
  · apply List.Pairwise.imp_of_mem ?_ hnd
    intro r1 r2 hr1 hr2 hne
    intro x hx1 hx2
    simp only [List.mem_map, List.mem_range] at hx1 hx2
    obtain ⟨i1, _, rfl⟩ := hx1
    obtain ⟨i2, _, h⟩ := hx2
    exact hne ((taskId_inj b (hdash r2 hr2) (hdash r1 hr1) h).1.symm)

theorem applyEvent_markGenerating_ids (ts : List GenerationTask) (i : String) :
    (applyEvent ts (TaskEvent.markGenerating i)).map (fun t => t.id)
      = ts.map (fun t => t.id) := by
  simp only [applyEvent, List.map_map]
  apply List.map_congr_left
  intro t _
  by_cases h : t.id = i <;> simp [h]

theorem markAllGenerating_ids (L ts : List GenerationTask) :
    (markAllGenerating L ts).map (fun t => t.id) = ts.map (fun t => t.id) := by
  unfold markAllGenerating
  induction L generalizing ts with
  | nil => rfl
  | cons t L ih =>
    rw [List.foldl_cons, ih, applyEvent_markGenerating_ids]

theorem handleGenerate_submitted_inv (st : AppState) (now : Nat)
    (rp : Option String) (rr : Option (List String)) (fp : String)
    (refs : List String) (nts : List GenerationTask) (calls : List GenCall)
    (st' : AppState)
    (h : handleGenerate st now rp rr
        = GenerateResult.submitted fp refs nts calls st') :
    nts = mkBatchTasks (Nat.repr now) st.params fp ∧
    st'.tasks = markAllGenerating nts (st.tasks ++ nts) ∧
    calls = nts.map (fun t =>
      { prompt := fp
        referenceImages := refs
        aspectRatio := t.aspectRatio
        resolution := st.params.resolution
        apiKey := st.apiKey
        baseUrl := if st.baseUrl = "" then none else some st.baseUrl }) := by
  by_cases hk : st.apiKey = ""
  · rw [handleGenerate, if_pos hk] at h
    cases h
  · simp only [handleGenerate, if_neg hk] at h
    by_cases hv : jsTrim (rp.getD st.prompt) = "" ∧ rr.getD st.referenceImages = []
    · rw [if_pos hv] at h
      cases h
    · rw [if_neg hv] at h
      injection h with h1 h2 h3 h4 h5
      subst h1
      subst h3
      subst h2
      subst h4
      subst h5
      refine ⟨rfl, ?_, rfl⟩
      by_cases ht : optTruthy rp = false
      · rw [if_pos ht]
      · rw [if_neg ht]

/-- C1: for every submitted batch, `handleGenerate` creates exactly
ratio-count times count tasks, appended after the existing list in outer
ratio order and inner index order, the task at flat position
`a * count + i` being the pending task for the a-th selected ratio with
deterministic id `batchId + "-" + ratio + "-" + i` where the batch id is
the decimal submission instant; all task ids in the resulting list are
distinct, provided the selected ratios are distinct and dash-free, the
existing ids are distinct, and no existing id extends the fresh batch id
followed by a dash. -/
theorem handleGenerate_batch_expansion (st : AppState) (now : Nat)
    (rp : Option String) (rr : Option (List String)) (fp : String)
    (refs : List String) (nts : List GenerationTask) (calls : List GenCall)
    (st' : AppState)
    (h : handleGenerate st now rp rr
        = GenerateResult.submitted fp refs nts calls st')
    (hnd : st.params.aspectRatios.Nodup)
    (hdash : ∀ r ∈ st.params.aspectRatios, noDash r = true)
    (hprev : (st.tasks.map (fun t => t.id)).Nodup)
    (hfresh : ∀ t ∈ st.tasks, ∀ s, t.id ≠ Nat.repr now ++ "-" ++ s) :
    nts.length = st.params.aspectRatios.length * st.params.count ∧
    (∀ (a i : Nat) (ha : a < st.params.aspectRatios.length),
      i < st.params.count →
      nts[a * st.params.count + i]?
        = some (mkTask (Nat.repr now) fp
            (st.params.aspectRatios.get ⟨a, ha⟩) i)) ∧
    st'.tasks.map (fun t => t.id) = (st.tasks ++ nts).map (fun t => t.id) ∧
    (st'.tasks.map (fun t => t.id)).Nodup := by
  obtain ⟨hnts, htasks, -⟩ := handleGenerate_submitted_inv st now rp rr
    fp refs nts calls st' h
  subst hnts
  have hids : st'.tasks.map (fun t => t.id)
      = (st.tasks ++ mkBatchTasks (Nat.repr now) st.params fp).map
          (fun t => t.id) := by
    rw [htasks, markAllGenerating_ids]
  refine ⟨mkBatchTasks_length _ _ _,
    fun a i ha hi => mkBatchTasks_getElem _ _ _ a i ha hi, hids, ?_⟩
  rw [hids, List.map_append]
  apply List.Nodup.append hprev (mkBatchTasks_ids_nodup _ _ _ hnd hdash)
  intro x hx1 hx2
  simp only [List.mem_map] at hx1
  obtain ⟨t, ht, rfl⟩ := hx1
  rw [mkBatchTasks_ids] at hx2
  simp only [List.mem_flatMap, List.mem_map, List.mem_range] at hx2
  obtain ⟨r, _, i, _, hid⟩ := hx2
  exact hfresh t ht (r ++ "-" ++ Nat.repr i) (by rw [← hid, taskId_shape])

/-- Witness for C1 at a concrete two-ratio, count-two submission. -/
theorem handleGenerate_batch_expansion_witness :
    c1Tasks.length = 2 * 2 ∧ (c1Final.tasks.map (fun t => t.id)).Nodup := by
  have h : handleGenerate baseState 17 none none
      = GenerateResult.submitted "a cat" [] c1Tasks c1Calls c1Final := by decide
  have hmain := handleGenerate_batch_expansion baseState 17 none none
    "a cat" [] c1Tasks c1Calls c1Final h (by decide) (by decide) (by decide)
    (by intro t ht; cases ht)
  exact ⟨by simpa using hmain.1, hmain.2.2.2⟩
theorem handleGenerate_resolution (st : AppState) (now : Nat)
    (rp : Option String) (rr : Option (List String)) (fp : String)
    (refs : List String) (nts : List GenerationTask) (calls : List GenCall)
    (st' : AppState)
    (h : handleGenerate st now rp rr
        = GenerateResult.submitted fp refs nts calls st') :
    (fp = match st.allPresets.find? (fun s => s.id == st.selectedStyleId) with
      | some s =>
          if optTruthy rp = false ∧ s.id ≠ "none" then
            s.description ++ ". " ++ rp.getD st.prompt
          else rp.getD st.prompt
      | none => rp.getD st.prompt) ∧
    (refs = rr.getD st.referenceImages ++
      (match st.allPresets.find? (fun s => s.id == st.selectedStyleId) with
       | some s => s.referenceImages.getD []
       | none => [])) := by
  by_cases hk : st.apiKey = ""
  · rw [handleGenerate, if_pos hk] at h
    cases h
  · simp only [handleGenerate, if_neg hk] at h
    by_cases hv : jsTrim (rp.getD st.prompt) = "" ∧ rr.getD st.referenceImages = []
    · rw [if_pos hv] at h
      cases h
    · rw [if_neg hv] at h
      injection h with h1 h2 h3 h4 h5
      exact ⟨h1.symm, h2.symm⟩

/-- C2: for every non-retry submission with a selected non-sentinel preset,
the prompt delivered to every generation call is the preset description, a
dot and a space, then the user prompt; the references delivered are the
user references followed by the preset's own reference images in order. -/
theorem handleGenerate_style_resolution (st : AppState) (now : Nat)
    (fp : String) (refs : List String) (nts : List GenerationTask)
    (calls : List GenCall) (st' : AppState) (preset : StylePreset)
    (h : handleGenerate st now none none
        = GenerateResult.submitted fp refs nts calls st')
    (hstyle : st.allPresets.find? (fun s => s.id == st.selectedStyleId)
        = some preset)
    (hns : preset.id ≠ "none") :
    fp = preset.description ++ ". " ++ st.prompt ∧
    refs = st.referenceImages ++ preset.referenceImages.getD [] ∧
    ∀ c ∈ calls, c.prompt = fp ∧ c.referenceImages = refs := by
  obtain ⟨h1, h2⟩ := handleGenerate_resolution st now none none fp refs nts
    calls st' h
  rw [hstyle] at h1 h2
  obtain ⟨-, -, hcalls⟩ := handleGenerate_submitted_inv st now none none fp
    refs nts calls st' h
  refine ⟨?_, ?_, ?_⟩
  · simpa [optTruthy, hns] using h1
  · simpa using h2
  · intro c hc
    rw [hcalls] at hc
    simp only [List.mem_map] at hc
    obtain ⟨t, -, rfl⟩ := hc
    exact ⟨rfl, rfl⟩

set_option maxHeartbeats 1000000 in
/-- Witness for C2 at a concrete styled submission. -/
theorem handleGenerate_style_resolution_witness :
    "Neon Noir style. a cat" = c2Preset.description ++ ". " ++ c2State.prompt ∧
    (["u1", "s1"] : List String)
      = c2State.referenceImages ++ c2Preset.referenceImages.getD [] := by
  have h : handleGenerate c2State 17 none none
      = GenerateResult.submitted "Neon Noir style. a cat" ["u1", "s1"]
          c2Tasks c2Calls c2Final := by decide
  have hmain := handleGenerate_style_resolution c2State 17
    "Neon Noir style. a cat" ["u1", "s1"] c2Tasks c2Calls c2Final c2Preset h
    (by decide) (by decide)
  exact ⟨hmain.1, hmain.2.1⟩

/-- C5: `handleGenerate` is a no-op in exactly two precondition-failure
cases: with no credential it signals the missing credential by opening the
key modal and leaves the task list untouched with no error attached; with
an empty-or-whitespace resolved prompt and no reference images it returns
with the state unchanged; in every other case it submits a batch of
ratio-count times count tasks. -/
theorem handleGenerate_preconditions (st : AppState) (now : Nat)
    (rp : Option String) (rr : Option (List String)) :
    (st.apiKey = "" →
      handleGenerate st now rp rr
        = GenerateResult.missingKey { st with keyModalOpen := true } ∧
      ({ st with keyModalOpen := true } : AppState).tasks = st.tasks) ∧
    (st.apiKey ≠ "" → jsTrim (rp.getD st.prompt) = "" →
      rr.getD st.referenceImages = [] →
      handleGenerate st now rp rr = GenerateResult.noop st) ∧
    (st.apiKey ≠ "" →
      ¬(jsTrim (rp.getD st.prompt) = "" ∧ rr.getD st.referenceImages = []) →
      ∃ fp refs nts calls st',
        handleGenerate st now rp rr
          = GenerateResult.submitted fp refs nts calls st' ∧
        nts.length = st.params.aspectRatios.length * st.params.count) := by
  refine ⟨?_, ?_, ?_⟩
  · intro hk
    rw [handleGenerate, if_pos hk]
    exact ⟨rfl, rfl⟩
  · intro hk h1 h2
    simp only [handleGenerate, if_neg hk]
    rw [if_pos ⟨h1, h2⟩]
  · intro hk hv
    simp only [handleGenerate, if_neg hk]
    rw [if_neg hv]
    exact ⟨_, _, _, _, _, rfl, mkBatchTasks_length _ _ _⟩

set_option maxHeartbeats 1000000 in
/-- Witness for C5: the missing-credential no-op and the empty-input no-op
at concrete states. -/
theorem handleGenerate_preconditions_witness :
    handleGenerate { baseState with apiKey := "" } 17 none none
      = GenerateResult.missingKey
          { baseState with apiKey := "", keyModalOpen := true } ∧
    handleGenerate { baseState with prompt := "  " } 17 none none
      = GenerateResult.noop { baseState with prompt := "  " } := by
  have h1 := (handleGenerate_preconditions
    { baseState with apiKey := "" } 17 none none).1 rfl
  have h2 := (handleGenerate_preconditions
    { baseState with prompt := "  " } 17 none none).2.1
    (by decide) (by decide) (by decide)
  exact ⟨h1.1, h2⟩

theorem find?_map_id_preserving (g : GenerationTask → GenerationTask)
    (hg : ∀ t, (g t).id = t.id) (i : String) (ts : List GenerationTask) :
    (ts.map g).find? (fun t => t.id == i)
      = (ts.find? (fun t => t.id == i)).map g := by
  induction ts with
  | nil => rfl
  | cons t ts ih =>
    simp only [List.map_cons, List.find?]
    rw [hg t]
    cases h : (t.id == i) with
    | true => simp
    | false => simpa using ih

theorem statusOf_map_pred_preserving (i : String)
    (g : GenerationTask → GenerationTask)
    (hg : ∀ t, (g t).id = t.id)
    (hs : ∀ t, t.id = i → (g t).status = t.status)
    (ts : List GenerationTask) :
    statusOf i (ts.map g) = statusOf i ts := by
  unfold statusOf
  rw [find?_map_id_preserving g hg]
  cases hf : ts.find? (fun t => t.id == i) with
  | none => rfl
  | some t =>
    have ht : t.id = i := by simpa using List.find?_some hf
    simp [hs t ht]

theorem statusOf_mark_self (i : String) (ts : List GenerationTask) :
    statusOf i (applyEvent ts (TaskEvent.markGenerating i))
      = (statusOf i ts).map (fun _ => TaskStatus.generating) := by
  simp only [statusOf, applyEvent]
  rw [find?_map_id_preserving _ (fun t => by by_cases h : t.id = i <;> simp [h])]
  cases hf : ts.find? (fun t => t.id == i) with
  | none => rfl
  | some t =>
    have ht : t.id = i := by simpa using List.find?_some hf
    simp [ht]

theorem statusOf_success_self (i : String) (d : GeneratedImage)
    (ts : List GenerationTask) :
    statusOf i (applyEvent ts (TaskEvent.completeSuccess i d))
      = (statusOf i ts).map (fun _ => TaskStatus.success) := by
  simp only [statusOf, applyEvent]
  rw [find?_map_id_preserving _ (fun t => by by_cases h : t.id = i <;> simp [h])]
  cases hf : ts.find? (fun t => t.id == i) with
  | none => rfl
  | some t =>
    have ht : t.id = i := by simpa using List.find?_some hf
    simp [ht]

theorem statusOf_error_self (i : String) (m : String)
    (ts : List GenerationTask) :
    statusOf i (applyEvent ts (TaskEvent.completeError i m))
      = (statusOf i ts).map (fun _ => TaskStatus.error) := by
  simp only [statusOf, applyEvent]
  rw [find?_map_id_preserving _ (fun t => by by_cases h : t.id = i <;> simp [h])]
  cases hf : ts.find? (fun t => t.id == i) with
  | none => rfl
  | some t =>
    have ht : t.id = i := by simpa using List.find?_some hf
    simp [ht]

theorem statusOf_delete (i j : String) (ts : List GenerationTask) :
    statusOf i (applyEvent ts (TaskEvent.deleteTask j))
      = if j = i then none else statusOf i ts := by
  simp only [statusOf, applyEvent]
  induction ts with
  | nil => by_cases hji : j = i <;> simp [hji]
  | cons t ts ih =>
    by_cases htj : t.id = j
    · rw [List.filter_cons_of_neg (by simp [htj])]
      rw [ih]
      by_cases hji : j = i
      · simp [hji]
      · have hti : (t.id == i) = false := by
          simp only [beq_eq_false_iff_ne, ne_eq]
          intro hc
          exact hji (htj ▸ hc ▸ rfl)
        simp only [List.find?]
        rw [hti]
    · rw [List.filter_cons_of_pos (by simp [htj])]
      simp only [List.find?]
      cases hti : (t.id == i) with
      | true =>
        have hji : ¬ j = i := by
          intro hc
          exact htj (by rw [hc]; simpa using hti)
        simp [hji]
      | false => rw [ih]

theorem statusOf_untargeted (i : String) (e : TaskEvent)
    (he : Untargeted i e) (ts : List GenerationTask) :
    statusOf i (applyEvent ts e) = statusOf i ts ∨
    statusOf i (applyEvent ts e) = none := by
  cases e with
  | appendBatch nts =>
    left
    simp only [statusOf, applyEvent]
    rw [List.find?_append]
    have hnone : nts.find? (fun t => t.id == i) = none := by
      rw [List.find?_eq_none]
      intro t ht
      simpa using he t ht
    rw [hnone, Option.or_none]
  | markGenerating j =>
    left
    apply statusOf_map_pred_preserving i
    · intro t; by_cases h : t.id = j <;> simp [h]
    · intro t hti
      have h : t.id ≠ j := by rw [hti]; exact fun hc => he hc.symm
      simp [h]
  | completeSuccess j d =>
    left
    apply statusOf_map_pred_preserving i
    · intro t; by_cases h : t.id = j <;> simp [h]
    · intro t hti
      have h : t.id ≠ j := by rw [hti]; exact fun hc => he hc.symm
      simp [h]
  | completeError j m =>
    left
    apply statusOf_map_pred_preserving i
    · intro t; by_cases h : t.id = j <;> simp [h]
    · intro t hti
      have h : t.id ≠ j := by rw [hti]; exact fun hc => he hc.symm
      simp [h]
  | favoriteUpd img =>
    left
    apply statusOf_map_pred_preserving i
    · intro t
      by_cases h : (t.data.map (fun d => d.id)) = some img.id <;> simp [h]
    · intro t _
      by_cases h : (t.data.map (fun d => d.id)) = some img.id <;> simp [h]
  | deleteTask j =>
    rw [statusOf_delete]
    by_cases hji : j = i
    · right; simp [hji]
    · left; simp [hji]

theorem obsStep_same (a : Option TaskStatus) : obsStep a a = true := by
  simp [obsStep]

theorem obsStep_to_none (a : Option TaskStatus) : obsStep a none = true := by
  simp [obsStep]

theorem phEvent_step (i : String) (ph : Phase) (e : TaskEvent) (ph' : Phase)
    (he : PhEvent i ph e ph') (ts : List GenerationTask)
    (hinv : phaseInv i ph ts) :
    phaseInv i ph' (applyEvent ts e) ∧
    obsStep (statusOf i ts) (statusOf i (applyEvent ts e)) = true := by
  cases he with
  | untargetedPend e hu =>
    rcases statusOf_untargeted i e hu ts with h | h
    · exact ⟨by simp only [phaseInv] at hinv ⊢; rw [h]; exact hinv,
        by rw [h]; exact obsStep_same _⟩
    · exact ⟨by simp only [phaseInv]; right; exact h,
        by rw [h]; exact obsStep_to_none _⟩
  | untargetedGen e hu =>
    rcases statusOf_untargeted i e hu ts with h | h
    · exact ⟨by simp only [phaseInv] at hinv ⊢; rw [h]; exact hinv,
        by rw [h]; exact obsStep_same _⟩
    · exact ⟨by simp only [phaseInv]; right; exact h,
        by rw [h]; exact obsStep_to_none _⟩
  | untargetedDone e hu =>
    rcases statusOf_untargeted i e hu ts with h | h
    · exact ⟨by simp only [phaseInv] at hinv ⊢; rw [h]; exact hinv,
        by rw [h]; exact obsStep_same _⟩
    · exact ⟨by simp only [phaseInv]; right; right; exact h,
        by rw [h]; exact obsStep_to_none _⟩
  | mark =>
    simp only [phaseInv] at hinv ⊢
    rcases hinv with h | h
    · rw [statusOf_mark_self, h]
      exact ⟨Or.inl rfl, by simp [obsStep]⟩
    · rw [statusOf_mark_self, h]
      exact ⟨Or.inr rfl, by simp [obsStep]⟩
  | completeOk d =>
    simp only [phaseInv] at hinv ⊢
    rcases hinv with h | h
    · rw [statusOf_success_self, h]
      exact ⟨Or.inl rfl, by simp [obsStep]⟩
    · rw [statusOf_success_self, h]
      exact ⟨Or.inr (Or.inr rfl), by simp [obsStep]⟩
  | completeFail m =>
    simp only [phaseInv] at hinv ⊢
    rcases hinv with h | h
    · rw [statusOf_error_self, h]
      exact ⟨Or.inr (Or.inl rfl), by simp [obsStep]⟩
    · rw [statusOf_error_self, h]
      exact ⟨Or.inr (Or.inr rfl), by simp [obsStep]⟩

theorem phTrace_sound (i : String) (es : List TaskEvent) (ph : Phase)
    (tr : PhTrace i ph es) :
    ∀ (ts : List GenerationTask), phaseInv i ph ts →
    ∀ (es₁ : List TaskEvent) (e : TaskEvent) (es₂ : List TaskEvent),
      es = es₁ ++ e :: es₂ →
      obsStep (statusOf i (applyEvents ts es₁))
        (statusOf i (applyEvent (applyEvents ts es₁) e)) = true := by
  induction tr with
  | nil ph =>
    intro ts _ es₁ e es₂ h
    exact absurd h (by simp)
  | cons hev htr ih =>
    intro ts hinv es₁ e es₂ hdec
    cases es₁ with
    | nil =>
      simp only [List.nil_append, List.cons.injEq] at hdec
      obtain ⟨rfl, rfl⟩ := hdec
      exact (phEvent_step i _ _ _ hev ts hinv).2
    | cons e₁ es₁' =>
      simp only [List.cons_append, List.cons.injEq] at hdec
      obtain ⟨rfl, hdec⟩ := hdec
      have hstep := (phEvent_step i _ _ _ hev ts hinv).1
      have hrec := ih _ hstep es₁' e es₂ hdec
      simpa [applyEvents] using hrec

theorem dispatchSeq_getElem (L : List GenerationTask)
    (f : GenerationTask → GenCall) :
    ∀ (n : Nat) (hn : n < L.length),
      (dispatchSeq L f)[2 * n]?
        = some (DispatchAction.update
            (TaskEvent.markGenerating (L.get ⟨n, hn⟩).id)) ∧
      (dispatchSeq L f)[2 * n + 1]?
        = some (DispatchAction.issue (f (L.get ⟨n, hn⟩))) := by
  induction L with
  | nil => intro n hn; simp at hn
  | cons t L ih =>
    intro n hn
    cases n with
    | zero => simp [dispatchSeq, List.flatMap_cons]
    | succ m =>
      have hm : m < L.length := by simpa using hn
      have h2 : 2 * (m + 1) = 2 * m + 2 := by omega
      rw [h2]
      unfold dispatchSeq
      rw [List.flatMap_cons]
      constructor
      · rw [List.getElem?_append]
        simp only [List.length_cons, List.length_nil]
        rw [if_neg (by omega)]
        have := (ih m hm).1
        unfold dispatchSeq at this
        have harith : 2 * m + 2 - 2 = 2 * m := by omega
        rw [show (2 : Nat) + 0 = 2 by rfl] at *
        simpa [harith] using this
      · rw [List.getElem?_append]
        simp only [List.length_cons, List.length_nil]
        rw [if_neg (by omega)]
        have := (ih m hm).2
        unfold dispatchSeq at this
        have harith : 2 * m + 2 + 1 - 2 = 2 * m + 1 := by omega
        simpa [harith] using this

theorem mkBatchTasks_all_pending (b : String) (p : GenerationParams)
    (fp : String) : ∀ t ∈ mkBatchTasks b p fp, t.status = TaskStatus.pending := by
  intro t ht
  simp only [mkBatchTasks, List.mem_flatMap, List.mem_map, List.mem_range] at ht
  obtain ⟨r, _, i, _, rfl⟩ := ht
  rfl

/-- C4: every task of a submitted batch is created `pending`; the dispatch
loop's action sequence marks task `n` `generating` at position `2n`,
strictly before issuing its external call at position `2n + 1`; marking a
pending task makes it `generating`; and along any event trace following the
per-task discipline of the dispatch loop (one `markGenerating` for the
task, then at most one completion for it, every other update not targeting
it), every observed status step of that task stays within
`pending → generating → {success, error}` with deletion as the only other
possibility — in particular no update changes the status of a task
observed in terminal `success` or `error`. -/
theorem task_status_machine :
    (∀ (b : String) (p : GenerationParams) (fp : String),
      ∀ t ∈ mkBatchTasks b p fp, t.status = TaskStatus.pending) ∧
    (∀ (L : List GenerationTask) (f : GenerationTask → GenCall) (n : Nat)
      (hn : n < L.length),
      (dispatchSeq L f)[2 * n]?
        = some (DispatchAction.update
            (TaskEvent.markGenerating (L.get ⟨n, hn⟩).id)) ∧
      (dispatchSeq L f)[2 * n + 1]?
        = some (DispatchAction.issue (f (L.get ⟨n, hn⟩)))) ∧
    (∀ (i : String) (ts : List GenerationTask),
      statusOf i ts = some TaskStatus.pending →
      statusOf i (applyEvent ts (TaskEvent.markGenerating i))
        = some TaskStatus.generating) ∧
    (∀ (i : String) (es : List TaskEvent) (ts : List GenerationTask),
      PhTrace i Phase.pend es →
      statusOf i ts = some TaskStatus.pending →
      ∀ (es₁ : List TaskEvent) (e : TaskEvent) (es₂ : List TaskEvent),
        es = es₁ ++ e :: es₂ →
        obsStep (statusOf i (applyEvents ts es₁))
          (statusOf i (applyEvent (applyEvents ts es₁) e)) = true) := by
  refine ⟨mkBatchTasks_all_pending, dispatchSeq_getElem, ?_, ?_⟩
  · intro i ts h
    rw [statusOf_mark_self, h]
    rfl
  · intro i es ts htr hst es₁ e es₂ hdec
    exact phTrace_sound i es Phase.pend htr ts (Or.inl hst) es₁ e es₂ hdec

/-- Witness for C4: a concrete pending task marked generating and then
completed successfully; both observed steps follow the machine. -/
theorem task_status_machine_witness :
    obsStep (statusOf "t1" (applyEvents [c4Task] [TaskEvent.markGenerating "t1"]))
      (statusOf "t1"
        (applyEvent (applyEvents [c4Task] [TaskEvent.markGenerating "t1"])
          (TaskEvent.completeSuccess "t1" c4Img))) = true ∧
    statusOf "t1" (applyEvent [c4Task] (TaskEvent.markGenerating "t1"))
      = some TaskStatus.generating := by
  have h := task_status_machine
  refine ⟨?_, h.2.2.1 "t1" [c4Task] (by decide)⟩
  exact h.2.2.2 "t1"
    [TaskEvent.markGenerating "t1", TaskEvent.completeSuccess "t1" c4Img]
    [c4Task]
    (PhTrace.cons PhEvent.mark
      (PhTrace.cons (PhEvent.completeOk c4Img) (PhTrace.nil _)))
    (by decide)
    [TaskEvent.markGenerating "t1"] (TaskEvent.completeSuccess "t1" c4Img) []
    rfl

/-- C6: after `handleToggleFavorite(image)`, the record with the
`isFavorite` flag flipped is persisted in the store, and every store
record, gallery entry, task datum, and open-lightbox entry carrying that
image id equals the flipped record — no stale un-flipped copy remains
reachable through those lists. -/
theorem handleToggleFavorite_propagation (image : GeneratedImage)
    (st : AppState) :
    (∃ j ∈ (handleToggleFavorite image st).imageStore,
      j = { image with isFavorite := !image.isFavorite }) ∧
    (∀ j ∈ (handleToggleFavorite image st).imageStore, j.id = image.id →
      j = { image with isFavorite := !image.isFavorite }) ∧
    (∀ g ∈ (handleToggleFavorite image st).gallery, g.id = image.id →
      g = { image with isFavorite := !image.isFavorite }) ∧
    (∀ t ∈ (handleToggleFavorite image st).tasks, ∀ d, t.data = some d →
      d.id = image.id → d = { image with isFavorite := !image.isFavorite }) ∧
    (st.lightbox.isOpen = true →
      ∀ g ∈ (handleToggleFavorite image st).lightbox.images,
        g.id = image.id →
        g = { image with isFavorite := !image.isFavorite }) := by
  refine ⟨?_, ?_, ?_, ?_, ?_⟩
  · simp only [handleToggleFavorite, saveImage]
    by_cases hany : st.imageStore.any
        (fun j => j.id == ({ image with isFavorite := !image.isFavorite} : GeneratedImage).id) = true
    · rw [if_pos hany]
      obtain ⟨j0, hj0, hj0id⟩ := List.any_eq_true.mp hany
      refine ⟨{ image with isFavorite := !image.isFavorite }, ?_, rfl⟩
      have : j0.id = image.id := by simpa using hj0id
      exact List.mem_map.mpr ⟨j0, hj0, by simp [this]⟩
    · rw [if_neg hany]
      exact ⟨_, List.mem_append_right _ (by simp), rfl⟩
  · intro j hj hjid
    simp only [handleToggleFavorite, saveImage] at hj
    by_cases hany : st.imageStore.any
        (fun j => j.id == ({ image with isFavorite := !image.isFavorite} : GeneratedImage).id) = true
    · rw [if_pos hany] at hj
      obtain ⟨j0, hj0, hj0e⟩ := List.mem_map.mp hj
      by_cases h : j0.id = image.id
      · rw [if_pos (by simpa using h)] at hj0e
        exact hj0e.symm
      · rw [if_neg (by simpa using h)] at hj0e
        exact absurd (hj0e ▸ hjid) h
    · rw [if_neg hany] at hj
      rcases List.mem_append.mp hj with hj | hj
      · exfalso
        apply hany
        exact List.any_eq_true.mpr ⟨j, hj, by simpa using hjid⟩
      · simpa using hj
  · intro g hg hgid
    simp only [handleToggleFavorite] at hg
    obtain ⟨g0, hg0, hg0e⟩ := List.mem_map.mp hg
    by_cases h : g0.id = image.id
    · rw [if_pos h] at hg0e
      exact hg0e.symm
    · rw [if_neg h] at hg0e
      exact absurd (hg0e ▸ hgid) h
  · intro t ht d hd hdid
    simp only [handleToggleFavorite, applyEvent] at ht
    obtain ⟨t0, ht0, ht0e⟩ := List.mem_map.mp ht
    by_cases h : (t0.data.map (fun d => d.id))
        = some ({ image with isFavorite := !image.isFavorite } : GeneratedImage).id
    · rw [if_pos h] at ht0e
      rw [← ht0e] at hd
      simpa using hd.symm
    · rw [if_neg h] at ht0e
      exfalso
      apply h
      rw [ht0e, hd]
      simpa using hdid
  · intro hopen g hg hgid
    simp only [handleToggleFavorite, hopen, if_pos] at hg
    obtain ⟨g0, hg0, hg0e⟩ := List.mem_map.mp hg
    by_cases h : g0.id = image.id
    · rw [if_pos h] at hg0e
      exact hg0e.symm
    · rw [if_neg h] at hg0e
      exact absurd (hg0e ▸ hgid) h

/-- Witness for C6 at a concrete state where a gallery entry, a task datum,
the store, and the open lightbox all hold the image. -/
theorem handleToggleFavorite_propagation_witness :
    (handleToggleFavorite c6Img c6State).gallery = [c6Upd] ∧
    (handleToggleFavorite c6Img c6State).imageStore = [c6Upd] ∧
    (handleToggleFavorite c6Img c6State).lightbox.images = [c6Upd] ∧
    c6Upd.isFavorite = true ∧
    c6Upd = { c6Img with isFavorite := !c6Img.isFavorite } := by
  refine ⟨by decide, by decide, by decide, by decide, ?_⟩
  exact (handleToggleFavorite_propagation c6Img c6State).2.2.1 c6Upd
    (by decide) (by decide)

/-- C9: `handleDeleteTask` removes the task from the in-session list only —
the persistent store, gallery and preset store are untouched — and a
completion callback for that id firing afterwards finds no task to map and
leaves the task list unchanged, so the deleted task is never resurrected. -/
theorem handleDeleteTask_no_resurrection (i : String) (st : AppState) :
    (handleDeleteTask i st).imageStore = st.imageStore ∧
    (handleDeleteTask i st).gallery = st.gallery ∧
    (handleDeleteTask i st).presetStore = st.presetStore ∧
    (∀ t ∈ (handleDeleteTask i st).tasks, t.id ≠ i) ∧
    (∀ (d : GeneratedImage),
      applyEvent (handleDeleteTask i st).tasks
        (TaskEvent.completeSuccess i d) = (handleDeleteTask i st).tasks) ∧
    (∀ (m : String),
      applyEvent (handleDeleteTask i st).tasks
        (TaskEvent.completeError i m) = (handleDeleteTask i st).tasks) := by
  have habsent : ∀ t ∈ (handleDeleteTask i st).tasks, t.id ≠ i := by
    intro t ht
    simp only [handleDeleteTask, applyEvent] at ht
    simpa using (List.mem_filter.mp ht).2
  refine ⟨rfl, rfl, rfl, habsent, ?_, ?_⟩
  · intro d
    simp only [applyEvent]
    calc (handleDeleteTask i st).tasks.map
          (fun t => if t.id = i then
            { t with status := TaskStatus.success, data := some d } else t)
        = (handleDeleteTask i st).tasks.map id := by
          apply List.map_congr_left
          intro t ht
          simp [habsent t ht]
      _ = (handleDeleteTask i st).tasks := List.map_id _
  · intro m
    simp only [applyEvent]
    calc (handleDeleteTask i st).tasks.map
          (fun t => if t.id = i then
            { t with status := TaskStatus.error, error := some m } else t)
        = (handleDeleteTask i st).tasks.map id := by
          apply List.map_congr_left
          intro t ht
          simp [habsent t ht]
      _ = (handleDeleteTask i st).tasks := List.map_id _

/-- Witness for C9: deleting the only task empties the session list, and a
late success completion for its id leaves the list unchanged. -/
theorem handleDeleteTask_no_resurrection_witness :
    (handleDeleteTask "t1" c9State).tasks = [] ∧
    (handleDeleteTask "t1" c9State).imageStore = c9State.imageStore ∧
    applyEvent (handleDeleteTask "t1" c9State).tasks
      (TaskEvent.completeSuccess "t1" c4Img)
      = (handleDeleteTask "t1" c9State).tasks := by
  refine ⟨by decide, by decide, ?_⟩
  exact (handleDeleteTask_no_resurrection "t1" c9State).2.2.2.2.1 c4Img

/-- C10: when the store write rejects after the external call succeeded,
the shared catch handler runs: the effect is identical to a rejection of
the generation call itself, the task is demoted to `error` carrying the
rejection's message (or the generic fallback), it is not `success`, the
store is not written, and the gallery is not reloaded. -/
theorem saveImage_rejection_demotes (task : GenerationTask)
    (bid fp : String) (fri : List String) (res sid : String) (n2 : Nat)
    (msg : Option String) (st : AppState) (t0 : GenerationTask)
    (hfind : st.tasks.find? (fun t => t.id == task.id) = some t0) :
    onTaskSettled task bid fp fri res sid n2 (CallOutcome.saveRejected msg) st
      = onTaskSettled task bid fp fri res sid n2
          (CallOutcome.genRejected msg) st ∧
    (onTaskSettled task bid fp fri res sid n2
        (CallOutcome.saveRejected msg) st).tasks.find?
          (fun t => t.id == task.id)
      = some { t0 with status := TaskStatus.error, error := some (errMsgOf msg) } ∧
    statusOf task.id
      (onTaskSettled task bid fp fri res sid n2
        (CallOutcome.saveRejected msg) st).tasks = some TaskStatus.error ∧
    statusOf task.id
      (onTaskSettled task bid fp fri res sid n2
        (CallOutcome.saveRejected msg) st).tasks ≠ some TaskStatus.success ∧
    (onTaskSettled task bid fp fri res sid n2
      (CallOutcome.saveRejected msg) st).imageStore = st.imageStore ∧
    (onTaskSettled task bid fp fri res sid n2
      (CallOutcome.saveRejected msg) st).gallery = st.gallery := by
  have hfind2 : (onTaskSettled task bid fp fri res sid n2
      (CallOutcome.saveRejected msg) st).tasks.find?
        (fun t => t.id == task.id)
      = some { t0 with status := TaskStatus.error, error := some (errMsgOf msg) } := by
    simp only [onTaskSettled, settleFailure, applyEvent]
    rw [find?_map_id_preserving _
      (fun t => by by_cases h : t.id = task.id <;> simp [h]), hfind]
    have ht0 : t0.id = task.id := by simpa using List.find?_some hfind
    simp [ht0]
  refine ⟨rfl, hfind2, ?_, ?_, rfl, rfl⟩
  · unfold statusOf
    rw [hfind2]
    rfl
  · unfold statusOf
    rw [hfind2]
    simp

/-- Witness for C10: a concrete store-write rejection demotes the task to
`error` with the fallback message and reloads nothing. -/
theorem saveImage_rejection_demotes_witness :
    statusOf "t1" (onTaskSettled c4Task "b" "p" [] "2K" "none" 9
      (CallOutcome.saveRejected none) c9State).tasks
      = some TaskStatus.error ∧
    (onTaskSettled c4Task "b" "p" [] "2K" "none" 9
      (CallOutcome.saveRejected none) c9State).gallery = c9State.gallery ∧
    errMsgOf none = "Generation failed" := by
  refine ⟨?_, by decide, by decide⟩
  exact (saveImage_rejection_demotes c4Task "b" "p" [] "2K" "none" 9 none
    c9State c4Task (by decide)).2.2.1

theorem mem_firstSeen (x : String) :
    ∀ (l : List String), x ∈ firstSeen l ↔ x ∈ l := by
  intro l
  induction l with
  | nil => simp [firstSeen]
  | cons k ks ih =>
    simp only [firstSeen, List.mem_cons, List.mem_filter]
    by_cases hx : x = k
    · simp [hx]
    · simp [hx, ih]

theorem firstSeen_cons (k : String) (ks : List String) :
    firstSeen (k :: ks) = k :: (firstSeen ks).filter (fun x => x ≠ k) := rfl

theorem firstSeen_append_single (l : List String) (k : String) :
    firstSeen (l ++ [k])
      = if k ∈ l then firstSeen l else firstSeen l ++ [k] := by
  induction l with
  | nil => simp [firstSeen]
  | cons x l ih =>
    rw [List.cons_append, firstSeen_cons, firstSeen_cons, ih]
    by_cases hk : k ∈ l
    · rw [if_pos hk, if_pos (List.mem_cons_of_mem x hk)]
    · by_cases hkx : k = x
      · rw [if_neg hk, if_pos (by simp [hkx]), List.filter_append]
        simp [hkx]
      · rw [if_neg hk, if_neg (by simp [List.mem_cons, hkx, hk]),
          List.filter_append]
        simp only [List.filter_cons, List.filter_nil]
        have hd : (decide (k ≠ x)) = true := by simp [hkx]
        simp [hd]

theorem foldl_pushTask_eq (ts : List GenerationTask) :
    ts.foldl pushTask []
      = (firstSeen (ts.map batchKey)).map
          (fun k => (k, ts.filter (fun t => batchKey t == k))) := by
  induction ts using List.reverseRecOn with
  | nil => rfl
  | append_singleton l t ih =>
    rw [List.foldl_append, List.foldl_cons, List.foldl_nil, ih]
    rw [List.map_append, List.map_cons, List.map_nil, firstSeen_append_single]
    by_cases hk : batchKey t ∈ l.map batchKey
    · rw [if_pos hk]
      unfold pushTask
      rw [if_pos ?side]
      case side =>
        rw [List.any_eq_true]
        refine ⟨(batchKey t, l.filter (fun t' => batchKey t' == batchKey t)), ?_, by simp⟩
        exact List.mem_map.mpr ⟨batchKey t, (mem_firstSeen _ _).mpr hk, rfl⟩
      rw [List.map_map]
      apply List.map_congr_left
      intro k hkmem
      by_cases hkt : k = batchKey t
      · subst hkt
        simp only [Function.comp_apply, if_pos rfl]
        rw [List.filter_append]
        simp
      · simp only [Function.comp_apply, if_neg hkt]
        rw [List.filter_append]
        have : (batchKey t == k) = false := by
          simp only [beq_eq_false_iff_ne, ne_eq]
          exact fun hc => hkt hc.symm
        simp [this]
    · rw [if_neg hk]
      unfold pushTask
      rw [if_neg ?side2]
      case side2 =>
        simp only [List.any_eq_true, not_exists, not_and]
        intro p hp
        obtain ⟨k, hkmem, rfl⟩ := List.mem_map.mp hp
        have : k ∈ l.map batchKey := (mem_firstSeen _ _).mp hkmem
        simp only [beq_iff_eq]
        intro hc
        exact hk (hc ▸ this)
      rw [List.map_append]
      congr 1
      · apply List.map_congr_left
        intro k hkmem
        have hkt : ¬ batchKey t = k := by
          intro hc
          exact hk (hc ▸ (mem_firstSeen _ _).mp hkmem)
        rw [List.filter_append]
        have : (batchKey t == k) = false := by simpa using hkt
        simp [this]
      · simp only [List.map_cons, List.map_nil]
        have hnil : l.filter (fun t' => batchKey t' == batchKey t) = [] := by
          rw [List.filter_eq_nil_iff]
          intro t' ht'
          simp only [beq_iff_eq]
          intro hc
          exact hk (List.mem_map.mpr ⟨t', ht', hc⟩)
        rw [List.filter_append, hnil]
        simp

/-- C7: `groupTasksByBatch` is the pure stable partition by batch key —
each group is the subsequence of tasks with one key, keys in first-seen
order, tasks lacking a batch id (or with an empty one) bucketed under the
fixed legacy key — and appending one task of a brand-new batch appends one
singleton group, leaving the groups and order of all pre-existing batches
unchanged. -/
theorem groupTasksByBatch_spec :
    (∀ ts : List GenerationTask,
      groupTasksByBatch ts
        = (firstSeen (ts.map batchKey)).map
            (fun k => ts.filter (fun t => batchKey t == k))) ∧
    (∀ t : GenerationTask, t.batchId = none → batchKey t = "legacy") ∧
    (∀ t : GenerationTask, t.batchId = some "" → batchKey t = "legacy") ∧
    (∀ (ts : List GenerationTask) (t : GenerationTask),
      batchKey t ∉ ts.map batchKey →
      groupTasksByBatch (ts ++ [t]) = groupTasksByBatch ts ++ [[t]]) := by
  have hchar : ∀ ts : List GenerationTask,
      groupTasksByBatch ts
        = (firstSeen (ts.map batchKey)).map
            (fun k => ts.filter (fun t => batchKey t == k)) := by
    intro ts
    unfold groupTasksByBatch
    rw [foldl_pushTask_eq, List.map_map]
    rfl
  refine ⟨hchar, ?_, ?_, ?_⟩
  · intro t h; simp [batchKey, h]
  · intro t h; simp [batchKey, h]
  · intro ts t hnew
    rw [hchar, hchar]
    rw [List.map_append, List.map_cons, List.map_nil, firstSeen_append_single,
      if_neg hnew, List.map_append]
    congr 1
    · apply List.map_congr_left
      intro k hkmem
      have hkt : (batchKey t == k) = false := by
        simp only [beq_eq_false_iff_ne, ne_eq]
        intro hc
        exact hnew (hc ▸ (mem_firstSeen _ _).mp hkmem)
      rw [List.filter_append]
      simp [hkt]
    · simp only [List.map_cons, List.map_nil]
      have hnil : ts.filter (fun t' => batchKey t' == batchKey t) = [] := by
        rw [List.filter_eq_nil_iff]
        intro t' ht'
        simp only [beq_iff_eq]
        intro hc
        exact hnew (List.mem_map.mpr ⟨t', ht', hc⟩)
      rw [List.filter_append, hnil]
      simp

/-- Witness for C7: concrete grouping of a three-batch list, and stability
under appending a task of a new batch. -/
theorem groupTasksByBatch_spec_witness :
    groupTasksByBatch [tA, tB, tA] = [[tA, tA], [tB]] ∧
    groupTasksByBatch ([tA, tB, tA] ++ [tC])
      = groupTasksByBatch [tA, tB, tA] ++ [[tC]] := by
  refine ⟨by decide, ?_⟩
  exact (groupTasksByBatch_spec).2.2.2 [tA, tB, tA] tC (by decide)

theorem savePreset_mem_self (p : StylePreset) (s : List StylePreset) :
    p ∈ savePreset p s := by
  unfold savePreset
  by_cases hany : s.any (fun q => q.id == p.id) = true
  · rw [if_pos hany]
    obtain ⟨q0, hq0, hq0id⟩ := List.any_eq_true.mp hany
    refine List.mem_map.mpr ⟨q0, hq0, ?_⟩
    rw [if_pos (by simpa using hq0id)]
  · rw [if_neg hany]
    exact List.mem_append_right _ (by simp)

theorem savePreset_preserves_other (p : StylePreset) (s : List StylePreset)
    (q : StylePreset) (hq : q ∈ s) (hne : q.id ≠ p.id) :
    q ∈ savePreset p s := by
  unfold savePreset
  by_cases hany : s.any (fun r => r.id == p.id) = true
  · rw [if_pos hany]
    refine List.mem_map.mpr ⟨q, hq, ?_⟩
    rw [if_neg hne]
  · rw [if_neg hany]
    exact List.mem_append_left _ hq

theorem savePreset_absent_append (p : StylePreset) (s : List StylePreset)
    (h : ∀ q ∈ s, q.id ≠ p.id) : savePreset p s = s ++ [p] := by
  unfold savePreset
  rw [if_neg ?_]
  simp only [List.any_eq_true, not_exists, not_and]
  intro q hq
  simpa using h q hq

theorem foldl_savePreset_of_absent :
    ∀ (l : List StylePreset) (s : List StylePreset),
      (∀ p ∈ l, ∀ q ∈ s, q.id ≠ p.id) → (l.map (fun p => p.id)).Nodup →
      l.foldl (fun acc p => savePreset p acc) s = s ++ l := by
  intro l
  induction l with
  | nil => intro s _ _; simp
  | cons p l ih =>
    intro s habs hnd
    rw [List.foldl_cons, savePreset_absent_append p s
      (fun q hq => habs p (by simp) q hq)]
    rw [ih (s ++ [p]) ?_ (by simpa using hnd.of_cons)]
    · simp
    · intro p' hp' q hq
      rcases List.mem_append.mp hq with hq | hq
      · exact habs p' (by simp [hp']) q hq
      · have : q = p := by simpa using hq
        subst this
        simp only [List.map_cons, List.nodup_cons, List.mem_map] at hnd
        intro hc
        exact hnd.1 ⟨p', hp', hc.symm⟩

/-- C8: preset initialization first upserts the sentinel preset (the one
with id "none" among the built-in defaults) unconditionally, then appends
exactly the defaults whose ids are not already stored; it never overwrites
a stored non-sentinel preset, so user edits survive, and the sentinel
exists afterwards. -/
theorem initPresetStore_spec (defaults store0 : List StylePreset)
    (noneDef : StylePreset)
    (hfind : defaults.find? (fun p => p.id == "none") = some noneDef)
    (hnodup : (defaults.map (fun p => p.id)).Nodup) :
    initPresetStore defaults store0
      = savePreset noneDef store0 ++
        defaults.filter (fun p =>
          ¬ ((savePreset noneDef store0).map (fun q => q.id)).contains p.id) ∧
    noneDef ∈ initPresetStore defaults store0 ∧
    (∀ q ∈ store0, q.id ≠ "none" → q ∈ initPresetStore defaults store0) := by
  have hnone : noneDef.id = "none" := by
    simpa using List.find?_some hfind
  have hchar : initPresetStore defaults store0
      = savePreset noneDef store0 ++
        defaults.filter (fun p =>
          ¬ ((savePreset noneDef store0).map (fun q => q.id)).contains
            p.id) := by
    unfold initPresetStore
    rw [hfind]
    simp only [getAllPresets]
    apply foldl_savePreset_of_absent
    · intro p hp q hq
      have hmem := (List.mem_filter.mp hp).2
      intro hc
      apply absurd hmem
      simp only [decide_not, Bool.not_eq_true', decide_eq_false_iff_not,
        Decidable.not_not]
      exact List.elem_iff.mpr (List.mem_map.mpr ⟨q, hq, hc⟩)
    · refine List.Nodup.sublist ?_ hnodup
      exact List.Sublist.map _ (List.filter_sublist defaults)
  refine ⟨hchar, ?_, ?_⟩
  · rw [hchar]
    exact List.mem_append_left _ (savePreset_mem_self noneDef store0)
  · intro q hq hqne
    rw [hchar]
    apply List.mem_append_left
    exact savePreset_preserves_other noneDef store0 q hq (hnone ▸ hqne)

/-- Witness for C8: a store holding a user-edited copy of a default preset;
initialization upserts the sentinel, seeds nothing else, and keeps the
edit. -/
theorem initPresetStore_spec_witness :
    initPresetStore [c8NoneDef, c8StyleB] [c8StyleBEdited]
      = [c8StyleBEdited, c8NoneDef] ∧
    c8StyleBEdited ∈ initPresetStore [c8NoneDef, c8StyleB] [c8StyleBEdited] ∧
    c8NoneDef ∈ initPresetStore [c8NoneDef, c8StyleB] [c8StyleBEdited] := by
  have h := initPresetStore_spec [c8NoneDef, c8StyleB] [c8StyleBEdited]
    c8NoneDef (by decide) (by decide)
  exact ⟨by decide, h.2.2 c8StyleBEdited (by decide) (by decide), h.2.1⟩

theorem markAllGenerating_append_of_fresh :
    ∀ (L : List GenerationTask) (A B : List GenerationTask),
      (∀ t ∈ L, ∀ a ∈ A, a.id ≠ t.id) →
      markAllGenerating L (A ++ B) = A ++ markAllGenerating L B := by
  intro L
  induction L with
  | nil => intro A B _; rfl
  | cons t L ih =>
    intro A B hfresh
    unfold markAllGenerating
    rw [List.foldl_cons, List.foldl_cons]
    have happ : applyEvent (A ++ B) (TaskEvent.markGenerating t.id)
        = A ++ applyEvent B (TaskEvent.markGenerating t.id) := by
      simp only [applyEvent, List.map_append]
      congr 1
      calc A.map (fun a => if a.id = t.id then
              { a with status := TaskStatus.generating } else a)
          = A.map id := by
            apply List.map_congr_left
            intro a ha
            simp [hfresh t (by simp) a ha]
        _ = A := List.map_id _
    rw [happ]
    exact ih A _ (fun t' ht' a ha => hfresh t' (by simp [ht']) a ha)

/-- C3 (amended): a batch retry re-submits with the already-resolved prompt
of the first task holding completed data and with that task's resolved
reference images; provided that resolved prompt is non-empty, it is
delivered verbatim — the style prefix is not re-applied — but the reference
images delivered are the previously resolved ones with the currently
selected preset's own reference images appended once more; an entirely new
batch of tasks under the new batch id is appended while the original tasks
are left in place unchanged. -/
theorem handleRegenerateBatch_resolved (batchTasks : List GenerationTask)
    (t0 : GenerationTask) (rest : List GenerationTask)
    (hbt : batchTasks = t0 :: rest)
    (td : GenerationTask) (d : GeneratedImage)
    (hfindd : batchTasks.find? (fun t => t.data.isSome) = some td)
    (hd : td.data = some d)
    (st : AppState) (now : Nat)
    (hkey : st.apiKey ≠ "")
    (hp : d.prompt ≠ "")
    (hval : ¬(jsTrim d.prompt = "" ∧ d.referenceImages = []))
    (hfresh : ∀ t ∈ st.tasks, ∀ s, t.id ≠ Nat.repr now ++ "-" ++ s) :
    ∃ calls st',
      handleRegenerateBatch batchTasks st now
        = some (GenerateResult.submitted d.prompt
            (d.referenceImages ++
              (match st.allPresets.find?
                  (fun s => s.id == st.selectedStyleId) with
               | some s => s.referenceImages.getD []
               | none => []))
            (mkBatchTasks (Nat.repr now) st.params d.prompt) calls st') ∧
      st'.tasks = st.tasks ++
        markAllGenerating (mkBatchTasks (Nat.repr now) st.params d.prompt)
          (mkBatchTasks (Nat.repr now) st.params d.prompt) := by
  subst hbt
  have hot : optTruthy (some d.prompt) = true := by
    simp [optTruthy, hp]
  have hres : handleGenerate st now (some d.prompt)
      (some d.referenceImages)
      = GenerateResult.submitted d.prompt
          (d.referenceImages ++
            (match st.allPresets.find?
                (fun s => s.id == st.selectedStyleId) with
             | some s => s.referenceImages.getD []
             | none => []))
          (mkBatchTasks (Nat.repr now) st.params d.prompt)
          ((mkBatchTasks (Nat.repr now) st.params d.prompt).map (fun t =>
            { prompt := d.prompt
              referenceImages := d.referenceImages ++
                (match st.allPresets.find?
                    (fun s => s.id == st.selectedStyleId) with
                 | some s => s.referenceImages.getD []
                 | none => [])
              aspectRatio := t.aspectRatio
              resolution := st.params.resolution
              apiKey := st.apiKey
              baseUrl := if st.baseUrl = "" then none else some st.baseUrl }))
          { st with
            activeTab := Tab.create
            showConfig := false
            tasks := markAllGenerating
              (mkBatchTasks (Nat.repr now) st.params d.prompt)
              (st.tasks ++
                mkBatchTasks (Nat.repr now) st.params d.prompt) } := by
    simp only [handleGenerate, if_neg hkey, Option.getD_some]
    rw [if_neg hval]
    rw [hot]
    cases hsty : st.allPresets.find? (fun s => s.id == st.selectedStyleId) with
    | none => simp
    | some s => simp
  have hfreshL : ∀ t ∈ mkBatchTasks (Nat.repr now) st.params d.prompt,
      ∀ a ∈ st.tasks, a.id ≠ t.id := by
    intro t ht a ha
    rw [mkBatchTasks] at ht
    simp only [List.mem_flatMap, List.mem_map, List.mem_range] at ht
    obtain ⟨r, _, i, _, rfl⟩ := ht
    show a.id ≠ taskId (Nat.repr now) r i
    rw [taskId_shape]
    exact hfresh a ha (r ++ "-" ++ Nat.repr i)
  refine ⟨(mkBatchTasks (Nat.repr now) st.params d.prompt).map (fun t =>
      { prompt := d.prompt
        referenceImages := d.referenceImages ++
          (match st.allPresets.find?
              (fun s => s.id == st.selectedStyleId) with
           | some s => s.referenceImages.getD []
           | none => [])
        aspectRatio := t.aspectRatio
        resolution := st.params.resolution
        apiKey := st.apiKey
        baseUrl := if st.baseUrl = "" then none else some st.baseUrl }),
    { st with
      activeTab := Tab.create
      showConfig := false
      tasks := markAllGenerating
        (mkBatchTasks (Nat.repr now) st.params d.prompt)
        (st.tasks ++ mkBatchTasks (Nat.repr now) st.params d.prompt) },
    ?_, ?_⟩
  · unfold handleRegenerateBatch
    rw [hfindd]
    simp only [Option.some_bind, hd]
    rw [hres]
  · show markAllGenerating (mkBatchTasks (Nat.repr now) st.params d.prompt)
        (st.tasks ++ mkBatchTasks (Nat.repr now) st.params d.prompt)
      = st.tasks ++ markAllGenerating
          (mkBatchTasks (Nat.repr now) st.params d.prompt)
          (mkBatchTasks (Nat.repr now) st.params d.prompt)
    exact markAllGenerating_append_of_fresh _ st.tasks _ hfreshL

/-- C3 counterexample: at a concrete retry with a selected preset carrying
reference images, the reference images delivered to the generation call are
not the previously resolved ones — the preset's reference image "s1" is
appended a second time. -/
theorem handleRegenerateBatch_refs_counterexample :
    sentRefs (handleRegenerateBatch c3Batch c3State 11)
      = some ["u1", "s1", "s1"] ∧
    sentRefs (handleRegenerateBatch c3Batch c3State 11)
      ≠ some c3Data.referenceImages := by
  exact ⟨by decide, by decide⟩

/-- Witness for the amended C3 at the same concrete retry: the prompt is
resubmitted verbatim without re-prefixing. -/
theorem handleRegenerateBatch_resolved_witness :
    sentPrompt (handleRegenerateBatch c3Batch c3State 11)
      = some "desc. a cat" := by
  obtain ⟨calls, st', heq, -⟩ := handleRegenerateBatch_resolved c3Batch
    c3Task [] rfl c3Task c3Data (by decide) (by decide) c3State 11 (by decide)
    (by decide) (by decide) (by intro t ht; cases ht)
  rw [heq]
  rfl

end GigaPeach
